import Mathlib

/-! Typed configuration fields of mapcrafter, namespace `config2`
(`src/config/parser.h`).

A shallow embedding of the class template `Field<T>` and the containers built
from it.  Member functions that mutate the object are pure functions that
return the C++ return value together with the new object state (and, where the
function takes a `ValidationList&`, the new list).

`ConfigSection`, `ValidationMessage` and `ValidationList` are declared in
`extended_ini.h`, which this header only includes; the three member functions
of `ConfigSection` that `Field` calls are taken as parameters.
-/

namespace mapcrafter
namespace config2

/-! ## External collaborators (`extended_ini.h`) -/

/-- Modelled from the spec: the read-only view `ConfigSection` of
`extended_ini.h`, restricted to one value type `T`.  `has` is `has(key)`,
`get` is `get<T>(key)` and `getD` is `get<T>(key, default_value)`.  All three
are `const` members, so they are functions of their arguments; nothing is
assumed about how they relate to each other. -/
structure ConfigSection (T : Type) where
  has : String → Bool
  get : String → T
  getD : String → T → T

/-- Modelled from the spec: the severity tag of a diagnostic, `{error, warning}`. -/
inductive Severity where
  | error
  | warning
  deriving DecidableEq, Repr

/-- Modelled from the spec: `ValidationMessage` of `extended_ini.h`, a
`(severity, text)` pair. -/
structure ValidationMessage where
  severity : Severity
  text : String
  deriving DecidableEq, Repr

/-- Modelled from the spec: the factory `ValidationMessage::error(message)`,
the error-severity diagnostic carrying `message`. -/
def ValidationMessage.error (message : String) : ValidationMessage :=
  ⟨Severity.error, message⟩

/-- Modelled from the spec: `ValidationList` of `extended_ini.h`, an ordered
sequence of diagnostics; `push_back` appends at the end. -/
abbrev ValidationList := List ValidationMessage

/-- The call `validation.push_back(m)`. -/
def ValidationList.push_back (validation : ValidationList) (m : ValidationMessage) :
    ValidationList :=
  validation ++ [m]

/-! ## `Field<T>` -/

/-- The three private members of `Field<T>`. -/
structure Field (T : Type) where
  value : T
  loaded : Bool
  valid : Bool
  deriving DecidableEq, Repr

namespace Field

variable {T : Type}

/-- The constructor `Field(T value) : value(value), loaded(false), valid(false)`. -/
def new (value : T) : Field T :=
  { value := value, loaded := false, valid := false }

/-- The accessor `getValue() const`. -/
def getValue (f : Field T) : T := f.value

/-- The accessor `isLoaded() const`. -/
def isLoaded (f : Field T) : Bool := f.loaded

/-- The accessor `isValid() const`. -/
def isValid (f : Field T) : Bool := f.valid

/-- The overload `load(section, key)`: the returned pair is the C++ return value and
the state of the object after the call. -/
def load (f : Field T) (sec : ConfigSection T) (key : String) : Bool × Field T :=
  if f.loaded then
    (true, f)
  else if sec.has key then
    let f1 := { f with value := sec.get key }
    let f2 := { f1 with loaded := true }
    let f3 := { f2 with valid := true }
    (f3.loaded, f3)
  else
    let f1 := { f with loaded := false }
    (f1.loaded, f1)

/-- The overload `load(section, key, default_value)`. -/
def loadDefault (f : Field T) (sec : ConfigSection T) (key : String) (default_value : T) :
    Bool × Field T :=
  if f.loaded then
    (true, f)
  else
    let f1 := { f with value := sec.getD key default_value }
    let f2 := { f1 with loaded := true }
    let f3 := { f2 with valid := true }
    (f3.loaded, f3)

/-- The result of a member function that takes a `ValidationList&`: the C++ return
value, the object afterwards and the list afterwards. -/
structure Checked (T : Type) where
  ret : Bool
  field : Field T
  validation : ValidationList

/-- The member `require(validation, message)`. -/
def require (f : Field T) (validation : ValidationList) (message : String) : Checked T :=
  if !f.loaded then
    { ret := false, field := f,
      validation := validation.push_back (ValidationMessage.error message) }
  else
    { ret := true, field := f, validation := validation }

/-- The loop of `validateOneOf`: walk `values` from `begin()` to `end()` and return
`true` at the first element equal to `value`, `false` when the end is reached. -/
def validateOneOfLoop [DecidableEq T] (value : T) : List T → Bool
  | [] => false
  | x :: rest => if value = x then true else validateOneOfLoop value rest

/-- The member `validateOneOf(validation, message, values)`. -/
def validateOneOf [DecidableEq T] (f : Field T) (validation : ValidationList)
    (_message : String) (values : List T) : Checked T :=
  if !f.loaded then
    { ret := false, field := f, validation := validation }
  else
    { ret := validateOneOfLoop f.value values, field := f, validation := validation }

end Field

/-! ## Sequences of calls on one `Field` -/

/-- One call of a state-changing (non-`const`) member function of `Field<T>`,
with its arguments. -/
inductive FieldCall (T : Type) where
  | load (sec : ConfigSection T) (key : String)
  | loadDefault (sec : ConfigSection T) (key : String) (default_value : T)
  | require (validation : ValidationList) (message : String)
  | validateOneOf (validation : ValidationList) (message : String) (values : List T)

/-- The object state after one call. -/
def Field.call {T : Type} [DecidableEq T] (f : Field T) : FieldCall T → Field T
  | .load sec key => (f.load sec key).2
  | .loadDefault sec key d => (f.loadDefault sec key d).2
  | .require validation message => (f.require validation message).field
  | .validateOneOf validation message values =>
      (f.validateOneOf validation message values).field

/-- The object state after a finite sequence of calls, first call first. -/
def Field.calls {T : Type} [DecidableEq T] (f : Field T) (cs : List (FieldCall T)) :
    Field T :=
  cs.foldl Field.call f

/-! ## Example sections -/

/-- A section holding exactly one key, `key = v`; `get(key, default)` is
present-or-default. -/
def sectionWith {T : Type} (key : String) (v : T) : ConfigSection T :=
  { has := fun k => k == key
    get := fun _ => v
    getD := fun k d => if k == key then v else d }

/-- A section holding no key at all; `get(key)` yields `fallback` and
`get(key, default)` yields the default. -/
def sectionEmpty {T : Type} (fallback : T) : ConfigSection T :=
  { has := fun _ => false
    get := fun _ => fallback
    getD := fun _ d => d }

/-! ## Counting the calls that change a `Field` -/

/-- The number of calls in `cs`, run in order from state `f`, after which the object
differs from what it was right before the call. -/
def Field.changeCount {T : Type} [DecidableEq T] (f : Field T) : List (FieldCall T) → Nat
  | [] => 0
  | c :: rest => (if f.call c = f then 0 else 1) + Field.changeCount (f.call c) rest

/-! ## Library types used by the sections -/

/-- Modelled from the spec: `boost::filesystem::path` (`fs::path`), a filesystem
path kept as its text; the default-constructed path is the empty one. -/
structure Path where
  str : String
  deriving DecidableEq, Repr

/-- The default constructor `fs::path()`. -/
def Path.empty : Path := ⟨""⟩

/-- The exception `std::out_of_range` thrown by `std::map::at`. -/
inductive StdException where
  | out_of_range
  deriving DecidableEq, Repr

/-- The container `std::map<K, V>` as the list of its `(key, value)` entries. -/
structure StdMap (K V : Type) where
  entries : List (K × V)

/-- The default constructor of `std::map`: no entries. -/
def StdMap.empty {K V : Type} : StdMap K V := ⟨[]⟩

/-- The value of the first entry of a list whose key equals `k`. -/
def StdMap.findEntry {K V : Type} [DecidableEq K] (k : K) : List (K × V) → Option V
  | [] => none
  | (k1, v) :: rest => if k1 = k then some v else StdMap.findEntry k rest

/-- The entry lookup underlying `count` and `at`. -/
def StdMap.find {K V : Type} [DecidableEq K] (m : StdMap K V) (k : K) : Option V :=
  StdMap.findEntry k m.entries

/-- The member `std::map::count(k)`: 1 when an entry with key `k` exists, else 0. -/
def StdMap.count {K V : Type} [DecidableEq K] (m : StdMap K V) (k : K) : Nat :=
  match m.find k with
  | some _ => 1
  | none => 0

/-- The member `std::map::at(k)`: the mapped value, or `std::out_of_range` thrown
when no entry has key `k`. -/
def StdMap.atKey {K V : Type} [DecidableEq K] (m : StdMap K V) (k : K) :
    Except StdException V :=
  match m.find k with
  | some v => Except.ok v
  | none => Except.error StdException.out_of_range

/-! ## `WorldSection` and `MapSection` -/

/-- The private members of `WorldSection`. -/
structure WorldSection where
  global : Bool
  input_dir : Field Path

/-- The constructor `WorldSection(bool global) : global(global)`; `input_dir` is
default-constructed, `Field(T())`. -/
def WorldSection.new (global : Bool) : WorldSection :=
  { global := global, input_dir := Field.new Path.empty }

/-- The member `setGlobal(global)`. -/
def WorldSection.setGlobal (w : WorldSection) (global : Bool) : WorldSection :=
  { w with global := global }

/-- The accessor `getInputDir() const`. -/
def WorldSection.getInputDir (w : WorldSection) : Path := w.input_dir.getValue

/-- The private members of `MapSection`. -/
structure MapSection where
  global : Bool
  name_short : String
  name_long : String
  world : Field String
  texture_dir : Field Path
  rotations : Field String
  rotations_set : Finset Int
  rendermode : Field String
  texture_size : Field Int
  render_unknown_blocks : Field Bool
  render_leaves_transparent : Field Bool
  render_biomes : Field Bool

/-- The constructor `MapSection(bool global) : global(global), texture_size(12),
render_unknown_blocks(false), render_leaves_transparent(false), render_biomes(false)`;
the members not named in the list are default-constructed. -/
def MapSection.new (global : Bool) : MapSection :=
  { global := global
    name_short := ""
    name_long := ""
    world := Field.new ""
    texture_dir := Field.new Path.empty
    rotations := Field.new ""
    rotations_set := ∅
    rendermode := Field.new ""
    texture_size := Field.new 12
    render_unknown_blocks := Field.new false
    render_leaves_transparent := Field.new false
    render_biomes := Field.new false }

namespace MapSection

/-- The member `setGlobal(global)`. -/
def setGlobal (m : MapSection) (global : Bool) : MapSection :=
  { m with global := global }

/-- The accessor `getShortName() const`. -/
def getShortName (m : MapSection) : String := m.name_short

/-- The accessor `getLongName() const`. -/
def getLongName (m : MapSection) : String := m.name_long

/-- The accessor `getWorld() const`. -/
def getWorld (m : MapSection) : String := m.world.getValue

/-- The accessor `getTextureDir() const`. -/
def getTextureDir (m : MapSection) : Path := m.texture_dir.getValue

/-- The accessor `getRotations() const`. -/
def getRotations (m : MapSection) : Finset Int := m.rotations_set

/-- The accessor `getRendermode() const`. -/
def getRendermode (m : MapSection) : String := m.rendermode.getValue

/-- The accessor `getTextureSize() const`. -/
def getTextureSize (m : MapSection) : Int := m.texture_size.getValue

/-- The accessor `renderUnknownBlocks() const`. -/
def renderUnknownBlocks (m : MapSection) : Bool := m.render_unknown_blocks.getValue

/-- The accessor `renderLeavesTransparent() const`. -/
def renderLeavesTransparent (m : MapSection) : Bool := m.render_leaves_transparent.getValue

/-- The accessor `renderBiomes() const`. -/
def renderBiomes (m : MapSection) : Bool := m.render_biomes.getValue

end MapSection

/-! ## `ConfigParser` -/

/-- The typedef `ValidationMap`, a `std::vector` of `(section identifier, diagnostics)`
pairs. -/
abbrev ValidationMap := List (String × ValidationList)

/-- The private members of `ConfigParser`. -/
structure ConfigParser where
  world_global : WorldSection
  map_global : MapSection
  output_dir : Path
  worlds : StdMap String WorldSection
  maps : List MapSection

namespace ConfigParser

/-- The constructor `ConfigParser() : world_global(true), map_global(true)`; the other
members are default-constructed. -/
def new : ConfigParser :=
  { world_global := WorldSection.new true
    map_global := MapSection.new true
    output_dir := Path.empty
    worlds := StdMap.empty
    maps := [] }

/-- The accessor `getOutputDir() const`. -/
def getOutputDir (p : ConfigParser) : Path := p.output_dir

/-- The member `hasWorld(world) const`: `worlds.count(world)` converted to `bool`. -/
def hasWorld (p : ConfigParser) (world : String) : Bool :=
  p.worlds.count world != 0

/-- The accessor `getWorlds() const`. -/
def getWorlds (p : ConfigParser) : StdMap String WorldSection := p.worlds

/-- The member `getWorld(world) const`: `worlds.at(world)`. -/
def getWorld (p : ConfigParser) (world : String) : Except StdException WorldSection :=
  p.worlds.atKey world

/-- The accessor `getMaps() const`. -/
def getMaps (p : ConfigParser) : List MapSection := p.maps

end ConfigParser

/-! ## `ConfigParser::parse`

The header declares `ConfigParser::parse`, `WorldSection::parse` and
`MapSection::parse`; their bodies are not in `parser.h`. -/

/-- Modelled from the spec: the member `std::map::operator[]` followed by assignment,
used to store a world under its name; an existing entry with that key is replaced
(last write wins), otherwise the entry is added. -/
def StdMap.set {K V : Type} [DecidableEq K] (m : StdMap K V) (k : K) (v : V) : StdMap K V :=
  ⟨(m.entries.filter (fun e => decide (e.1 ≠ k))) ++ [(k, v)]⟩

/-- Modelled from the spec: the raw document handed over by the tokenizer (section
4.3, step 1): a global section, the named world sections and the named map sections
in document order, and the top-level `output_dir`.  `S` is the type of one raw
section. -/
structure RawDocument (S : Type) where
  global : S
  output_dir : Path
  worlds : List (String × S)
  maps : List (String × S)

/-- Modelled from the spec: what `ConfigParser::parse` calls and `parser.h` does not
define.  `read` is the external tokenizer (`none` when the document cannot be split
into sections); `worldTemplate` and `mapTemplate` are `parse` on the two global
templates; `worldEntry` and `mapEntry` are `parse` on a freshly constructed concrete
section followed by the fallback to the global template (first argument).  Each
returns the section afterwards and the diagnostics it emitted. -/
structure ParseEnv (S : Type) where
  read : String → Option (RawDocument S)
  worldTemplate : WorldSection → S → WorldSection × ValidationList
  mapTemplate : MapSection → S → MapSection × ValidationList
  worldEntry : WorldSection → WorldSection → S → WorldSection × ValidationList
  mapEntry : MapSection → MapSection → S → MapSection × ValidationList

/-- Modelled from the spec: whether a diagnostic has error severity. -/
def ValidationMessage.isError (m : ValidationMessage) : Bool :=
  match m.severity with
  | Severity.error => true
  | Severity.warning => false

/-- Modelled from the spec: whether some diagnostic of a `ValidationList` has error
severity. -/
def listHasError : ValidationList → Bool
  | [] => false
  | m :: rest => if m.isError then true else listHasError rest

/-- Modelled from the spec: whether some entry of a `ValidationMap` contains an
error-severity diagnostic. -/
def mapHasError : ValidationMap → Bool
  | [] => false
  | e :: rest => if listHasError e.2 then true else mapHasError rest

/-- The state threaded through the per-entry steps of `parse`: the parser and the
validation map. -/
structure ParseState where
  parser : ConfigParser
  validation : ValidationMap

/-- Modelled from the spec: section 4.3, step 3, for the world entries in document
order: construct a non-global `WorldSection`, parse it with fallback to the global
template, store it in `worlds` under the section name, and add its diagnostics to
the validation map under the section identifier. -/
def parseWorlds {S : Type} (env : ParseEnv S) : List (String × S) → ParseState → ParseState
  | [], st => st
  | (name, raw) :: rest, st =>
    let r := env.worldEntry st.parser.world_global (WorldSection.new false) raw
    parseWorlds env rest
      { parser := { st.parser with worlds := st.parser.worlds.set name r.1 }
        validation := st.validation ++ [("world:" ++ name, r.2)] }

/-- Modelled from the spec: section 4.3, step 4, for the map entries in document
order: construct a non-global `MapSection`, parse it with fallback to the global
template, append it to `maps`, and add its diagnostics to the validation map under
the section identifier. -/
def parseMaps {S : Type} (env : ParseEnv S) : List (String × S) → ParseState → ParseState
  | [], st => st
  | (name, raw) :: rest, st =>
    let r := env.mapEntry st.parser.map_global (MapSection.new false) raw
    parseMaps env rest
      { parser := { st.parser with maps := st.parser.maps ++ [r.1] }
        validation := st.validation ++ [("map:" ++ name, r.2)] }

/-- Modelled from the spec: `ConfigParser::parse(filename, validationMap)`, section
4.3, steps 1 to 5, and the structural error of section 7 (reported once, no section
is parsed).  The result is the C++ return value, the parser afterwards and the
validation map afterwards; the return value is `true` iff no entry of the
validation map contains an error-severity diagnostic. -/
def ConfigParser.parse {S : Type} (env : ParseEnv S) (p : ConfigParser) (filename : String)
    (validation : ValidationMap) : Bool × ConfigParser × ValidationMap :=
  match env.read filename with
  | none =>
    let vm := validation ++
      [("document", [ValidationMessage.error "unable to split the document into sections"])]
    (!mapHasError vm, p, vm)
  | some doc =>
    let wg := env.worldTemplate p.world_global doc.global
    let mg := env.mapTemplate p.map_global doc.global
    let st0 : ParseState :=
      { parser := { p with world_global := wg.1, map_global := mg.1,
                           output_dir := doc.output_dir }
        validation := validation ++ [("global:worlds", wg.2), ("global:maps", mg.2)] }
    let st := parseMaps env doc.maps (parseWorlds env doc.worlds st0)
    (!mapHasError st.validation, st.parser, st.validation)

/-! ## Example documents -/

/-- A tokenizer environment over raw sections that are just the diagnostics their
parse emits: every file holds the document `doc`. -/
def envOf (doc : RawDocument ValidationList) : ParseEnv ValidationList :=
  { read := fun _ => some doc
    worldTemplate := fun w raw => (w, raw)
    mapTemplate := fun m raw => (m, raw)
    worldEntry := fun _ w raw => (w, raw)
    mapEntry := fun _ m raw => (m, raw) }

/-- A document whose only diagnostic is a warning in map `day`. -/
def docWarningOnly : RawDocument ValidationList :=
  { global := []
    output_dir := ⟨"out"⟩
    worlds := [("world", [])]
    maps := [("day", [⟨Severity.warning, "texture_size is large"⟩])] }

/-- A document with an error in map `day`. -/
def docWithError : RawDocument ValidationList :=
  { global := []
    output_dir := ⟨"out"⟩
    worlds := [("world", [])]
    maps := [("day", [⟨Severity.error, "texture_size must be positive"⟩])] }

/-! ## Auxiliary lemmas -/

section Lemmas

variable {T : Type}

theorem Field.load_of_loaded (f : Field T) (sec : ConfigSection T) (key : String)
    (h : f.loaded = true) : f.load sec key = (true, f) := by
  simp [Field.load, h]

theorem Field.loadDefault_of_loaded (f : Field T) (sec : ConfigSection T) (key : String)
    (d : T) (h : f.loaded = true) : f.loadDefault sec key d = (true, f) := by
  simp [Field.loadDefault, h]

theorem Field.load_of_has (f : Field T) (sec : ConfigSection T) (key : String)
    (h : f.loaded = false) (hk : sec.has key = true) :
    f.load sec key = (true, { value := sec.get key, loaded := true, valid := true }) := by
  simp [Field.load, h, hk]

theorem Field.load_of_not_has (f : Field T) (sec : ConfigSection T) (key : String)
    (h : f.loaded = false) (hk : sec.has key = false) :
    f.load sec key = (false, f) := by
  cases f with
  | mk value loaded valid =>
    simp only at h
    subst h
    simp [Field.load, hk]

theorem Field.loadDefault_of_not_loaded (f : Field T) (sec : ConfigSection T)
    (key : String) (d : T) (h : f.loaded = false) :
    f.loadDefault sec key d
      = (true, { value := sec.getD key d, loaded := true, valid := true }) := by
  simp [Field.loadDefault, h]

/-- One call keeps `valid` equal to `loaded`. -/
theorem Field.call_valid_eq_loaded [DecidableEq T] (f : Field T) (c : FieldCall T)
    (h : f.valid = f.loaded) : (f.call c).valid = (f.call c).loaded := by
  cases hl : f.loaded with
  | true =>
    cases c <;>
      simp [Field.call, Field.load, Field.loadDefault, Field.require,
        Field.validateOneOf, hl, h]
  | false =>
    cases c with
    | load sec key =>
      cases hk : sec.has key <;> simp [Field.call, Field.load, hl, hk, h]
    | loadDefault sec key d => simp [Field.call, Field.loadDefault, hl]
    | require validation message => simp [Field.call, Field.require, hl, h]
    | validateOneOf validation message values =>
      simp [Field.call, Field.validateOneOf, hl, h]

/-- Every state reached from a freshly constructed `Field` has `valid` equal to
`loaded`. -/
theorem Field.calls_valid_eq_loaded [DecidableEq T] (cs : List (FieldCall T)) :
    ∀ f : Field T, f.valid = f.loaded → (f.calls cs).valid = (f.calls cs).loaded := by
  induction cs with
  | nil => intro f h; simpa [Field.calls] using h
  | cons c rest ih =>
    intro f h
    have := ih (f.call c) (Field.call_valid_eq_loaded f c h)
    simpa [Field.calls] using this

theorem Field.validateOneOfLoop_iff [DecidableEq T] (value : T) (values : List T) :
    Field.validateOneOfLoop value values = true ↔ value ∈ values := by
  induction values with
  | nil => simp [Field.validateOneOfLoop]
  | cons x rest ih =>
    by_cases hx : value = x
    · simp [Field.validateOneOfLoop, hx]
    · simp [Field.validateOneOfLoop, hx, ih]

end Lemmas

/-! ## The contract of `Field<T>` -/

section Contract

variable {T : Type}

/-- C1 (per-entry value wins): for a freshly constructed Field, a concrete section
`C` that has `k`, any global section `G` and any default `d`, the call
`load(C, k)` followed by `load(G, k, d)` returns `true` twice and leaves
`getValue() == C.get(k)` with `isLoaded()` and `isValid()` both true. -/
theorem per_entry_value_wins (v0 : T) (C G : ConfigSection T) (k : String) (d : T)
    (hC : C.has k = true) :
    ((Field.new v0).load C k).1 = true
      ∧ ((((Field.new v0).load C k).2).loadDefault G k d).1 = true
      ∧ ((((Field.new v0).load C k).2).loadDefault G k d).2.getValue = C.get k
      ∧ ((((Field.new v0).load C k).2).loadDefault G k d).2.isLoaded = true
      ∧ ((((Field.new v0).load C k).2).loadDefault G k d).2.isValid = true := by
  have h1 := Field.load_of_has (Field.new v0) C k rfl hC
  rw [h1]
  simp [Field.loadDefault, Field.getValue, Field.isLoaded, Field.isValid]

/-- Witness of C1: the concrete section sets `texture_size = 16`, the global
section sets it to 32, the default is 12; the field ends with 16. -/
theorem per_entry_value_wins_witness :
    (sectionWith "texture_size" (16 : Int)).has "texture_size" = true
      ∧ (((((Field.new (12 : Int)).load (sectionWith "texture_size" 16) "texture_size").2).loadDefault
            (sectionWith "texture_size" 32) "texture_size" 12).2.getValue = 16) :=
  ⟨by decide,
   (per_entry_value_wins (12 : Int) (sectionWith "texture_size" 16)
      (sectionWith "texture_size" 32) "texture_size" 12 (by decide)).2.2.1⟩

/-- C2 (global fallback): for a freshly constructed Field, a concrete section `C`
that lacks `k`, a global section `G` that has `k` with value `g`, and any default
`d`, if `G.get(k, d)` returns the value of `G` when the key is present, then
`load(C, k)` returns `false` and the following `load(G, k, d)` returns `true` and
leaves `getValue() == g` with `isLoaded()` and `isValid()` both true. -/
theorem global_fallback (v0 : T) (C G : ConfigSection T) (k : String) (g d : T)
    (hC : C.has k = false) (hG : G.has k = true) (hg : G.get k = g)
    (hD : G.has k = true → G.getD k d = G.get k) :
    ((Field.new v0).load C k).1 = false
      ∧ ((((Field.new v0).load C k).2).loadDefault G k d).1 = true
      ∧ ((((Field.new v0).load C k).2).loadDefault G k d).2.getValue = g
      ∧ ((((Field.new v0).load C k).2).loadDefault G k d).2.isLoaded = true
      ∧ ((((Field.new v0).load C k).2).loadDefault G k d).2.isValid = true := by
  have h1 := Field.load_of_not_has (Field.new v0) C k rfl hC
  rw [h1]
  have h2 := Field.loadDefault_of_not_loaded (Field.new v0) G k d rfl
  simp only [h2]
  simp [Field.getValue, Field.isLoaded, Field.isValid, hD hG, hg]

/-- Witness of C2: the concrete section is empty, the global section sets
`texture_size = 16`, the default is 12; the field ends with 16. -/
theorem global_fallback_witness :
    ((((Field.new (12 : Int)).load (sectionEmpty 0) "texture_size").2).loadDefault
        (sectionWith "texture_size" 16) "texture_size" 12).2.getValue = 16 :=
  (global_fallback (12 : Int) (sectionEmpty 0) (sectionWith "texture_size" 16)
      "texture_size" 16 12 rfl (by decide) rfl (fun _ => by decide)).2.2.1

/-- C3 (`load(section, key)` on a Field that is not loaded): when the section has
the key the call returns `true` and leaves `getValue() == section.get(key)`,
`isLoaded()` and `isValid()` true; when it has not, the call returns `false` and
leaves `isLoaded() == false`. -/
theorem load_not_loaded (f : Field T) (sec : ConfigSection T) (key : String)
    (h : f.isLoaded = false) :
    (sec.has key = true →
        (f.load sec key).1 = true
          ∧ (f.load sec key).2.getValue = sec.get key
          ∧ (f.load sec key).2.isLoaded = true
          ∧ (f.load sec key).2.isValid = true)
      ∧ (sec.has key = false →
        (f.load sec key).1 = false ∧ (f.load sec key).2.isLoaded = false) := by
  constructor
  · intro hk
    rw [Field.load_of_has f sec key h hk]
    simp [Field.getValue, Field.isLoaded, Field.isValid]
  · intro hk
    rw [Field.load_of_not_has f sec key h hk]
    exact ⟨rfl, h⟩

/-- Witness of C3: a fresh Field with value 12, loaded from a section that sets
`texture_size = 16` and from an empty section. -/
theorem load_not_loaded_witness :
    ((Field.new (12 : Int)).load (sectionWith "texture_size" 16) "texture_size").1 = true
      ∧ ((Field.new (12 : Int)).load (sectionWith "texture_size" 16) "texture_size").2.getValue
          = 16
      ∧ ((Field.new (12 : Int)).load (sectionEmpty 0) "texture_size").1 = false
      ∧ ((Field.new (12 : Int)).load (sectionEmpty 0) "texture_size").2.isLoaded = false :=
  have h := load_not_loaded (Field.new (12 : Int)) (sectionWith "texture_size" 16)
    "texture_size" rfl
  have h0 := load_not_loaded (Field.new (12 : Int)) (sectionEmpty 0) "texture_size" rfl
  ⟨(h.1 (by decide)).1, (h.1 (by decide)).2.1, (h0.2 rfl).1, (h0.2 rfl).2⟩

/-- C4 (`load(section, key, default_value)` never fails): in every state a Field can
be in (any constructor value, any sequence of calls), for every section, key and
default the call returns `true` and leaves `isLoaded()` and `isValid()` true; when
the Field was not loaded before the call, afterwards
`getValue() == section.get(key, default_value)`. -/
theorem loadDefault_never_fails [DecidableEq T] (v : T) (cs : List (FieldCall T))
    (sec : ConfigSection T) (key : String) (d : T) :
    (((Field.new v).calls cs).loadDefault sec key d).1 = true
      ∧ (((Field.new v).calls cs).loadDefault sec key d).2.isLoaded = true
      ∧ (((Field.new v).calls cs).loadDefault sec key d).2.isValid = true
      ∧ (((Field.new v).calls cs).isLoaded = false →
          (((Field.new v).calls cs).loadDefault sec key d).2.getValue = sec.getD key d) := by
  have hinv := Field.calls_valid_eq_loaded cs (Field.new v) rfl
  cases hl : ((Field.new v).calls cs).loaded with
  | true =>
    rw [Field.loadDefault_of_loaded _ sec key d hl]
    simp [Field.isLoaded, Field.isValid, hl, hinv]
  | false =>
    rw [Field.loadDefault_of_not_loaded _ sec key d hl]
    simp [Field.isLoaded, Field.isValid, Field.getValue]

/-- Witness of C4: a fresh Field on which `require` was called, then loaded with
default 12 from an empty section. -/
theorem loadDefault_never_fails_witness :
    (((Field.new (7 : Int)).calls [FieldCall.require [] "missing"]).loadDefault
        (sectionEmpty 0) "texture_size" 12).2.getValue = 12 :=
  (loadDefault_never_fails (7 : Int) [FieldCall.require [] "missing"]
      (sectionEmpty 0) "texture_size" 12).2.2.2 rfl

/-- C5 (loaded fields are frozen): on a Field with `isLoaded() == true` both
overloads of `load`, with any section, key and default, return `true` and leave
the object exactly as it was. -/
theorem load_noop_once_loaded (f : Field T) (sec : ConfigSection T) (key : String) (d : T)
    (h : f.isLoaded = true) :
    f.load sec key = (true, f) ∧ f.loadDefault sec key d = (true, f) :=
  ⟨Field.load_of_loaded f sec key h, Field.loadDefault_of_loaded f sec key d h⟩

/-- Witness of C5: a Field loaded with 16 is offered a section that sets the key
to 32. -/
theorem load_noop_once_loaded_witness :
    (Field.mk (16 : Int) true true).load (sectionWith "texture_size" 32) "texture_size"
        = (true, Field.mk 16 true true)
      ∧ (Field.mk (16 : Int) true true).loadDefault (sectionWith "texture_size" 32)
          "texture_size" 12 = (true, Field.mk 16 true true) :=
  load_noop_once_loaded (Field.mk (16 : Int) true true) (sectionWith "texture_size" 32)
    "texture_size" 12 rfl

/-- C6 (idempotence of `load(section, key)`): for every Field, section and key, a
second `load(section, key)` right after the first leaves `getValue()` unchanged. -/
theorem load_idempotent (f : Field T) (sec : ConfigSection T) (key : String) :
    (((f.load sec key).2).load sec key).2.getValue = (f.load sec key).2.getValue := by
  cases hl : f.loaded with
  | true => simp [Field.load_of_loaded f sec key hl]
  | false =>
    cases hk : sec.has key with
    | true =>
      rw [Field.load_of_has f sec key hl hk]
      simp [Field.load]
    | false => simp [Field.load_of_not_has f sec key hl hk]

/-- Counterexample to C7 as stated: a Field constructed with default 12 and already
loaded with 16 keeps 16 when `load(section, key, 12)` is called with a section
that lacks the key and whose `get(key, 12)` returns 12. -/
theorem default_when_absent_counterexample :
    (sectionEmpty (0 : Int)).has "texture_size" = false
      ∧ (sectionEmpty (0 : Int)).getD "texture_size" 12 = 12
      ∧ ((((Field.new (12 : Int)).load (sectionWith "texture_size" 16) "texture_size").2).loadDefault
            (sectionEmpty 0) "texture_size" 12).2.getValue = 16
      ∧ ((((Field.new (12 : Int)).load (sectionWith "texture_size" 16) "texture_size").2).loadDefault
            (sectionEmpty 0) "texture_size" 12).2.getValue ≠ 12 := by
  decide

/-- C7 as amended (default applied when the key is absent): in every state a Field
can be in, for every section from which `key` is absent and whose `get(key, d)`
returns `d` for an absent key, after `load(section, key, d)` it holds that
`isValid() == true`, and `getValue() == d` when the Field was not loaded before
the call. -/
theorem default_when_absent [DecidableEq T] (v : T) (cs : List (FieldCall T))
    (sec : ConfigSection T) (key : String) (d : T)
    (hk : sec.has key = false) (hD : sec.has key = false → sec.getD key d = d) :
    (((Field.new v).calls cs).loadDefault sec key d).2.isValid = true
      ∧ (((Field.new v).calls cs).isLoaded = false →
          (((Field.new v).calls cs).loadDefault sec key d).2.getValue = d) := by
  have hinv := Field.calls_valid_eq_loaded cs (Field.new v) rfl
  cases hl : ((Field.new v).calls cs).loaded with
  | true =>
    rw [Field.loadDefault_of_loaded _ sec key d hl]
    simp [Field.isLoaded, Field.isValid, hl, hinv]
  | false =>
    rw [Field.loadDefault_of_not_loaded _ sec key d hl]
    simp [Field.isValid, Field.getValue, hD hk]

/-- Witness of C7 as amended: a fresh Field with default 12 whose per-entry load
found nothing, then loaded with default 12 from an empty section. -/
theorem default_when_absent_witness :
    (((Field.new (12 : Int)).calls [FieldCall.load (sectionEmpty 0) "texture_size"]).loadDefault
        (sectionEmpty 0) "texture_size" 12).2.isValid = true
      ∧ (((Field.new (12 : Int)).calls [FieldCall.load (sectionEmpty 0) "texture_size"]).loadDefault
          (sectionEmpty 0) "texture_size" 12).2.getValue = 12 :=
  have h := default_when_absent (12 : Int) [FieldCall.load (sectionEmpty 0) "texture_size"]
    (sectionEmpty 0) "texture_size" 12 rfl (fun _ => rfl)
  ⟨h.1, h.2 rfl⟩

/-- C8 (`require`): on a Field that is not loaded the call returns `false` and the
validation list afterwards is the list before followed by the single element
`ValidationMessage::error(message)`; on a loaded Field it returns `true` and the
list is unchanged. -/
theorem require_contract (f : Field T) (validation : ValidationList) (message : String) :
    (f.isLoaded = false →
        (f.require validation message).ret = false
          ∧ (f.require validation message).validation
              = validation ++ [ValidationMessage.error message])
      ∧ (f.isLoaded = true →
        (f.require validation message).ret = true
          ∧ (f.require validation message).validation = validation) := by
  constructor
  · intro h
    have h1 : f.loaded = false := h
    simp [Field.require, h1, ValidationList.push_back]
  · intro h
    have h1 : f.loaded = true := h
    simp [Field.require, h1]

/-- Witness of C8: `require` on a fresh Field appends one error after the warning
already in the list; on a loaded Field the list stays as it was. -/
theorem require_contract_witness :
    ((Field.new (12 : Int)).require [⟨Severity.warning, "w"⟩] "world missing").validation
        = [⟨Severity.warning, "w"⟩, ⟨Severity.error, "world missing"⟩]
      ∧ ((Field.mk (16 : Int) true true).require [⟨Severity.warning, "w"⟩]
          "world missing").validation = [⟨Severity.warning, "w"⟩] :=
  ⟨((require_contract (Field.new (12 : Int)) [⟨Severity.warning, "w"⟩]
      "world missing").1 rfl).2,
   ((require_contract (Field.mk (16 : Int) true true) [⟨Severity.warning, "w"⟩]
      "world missing").2 rfl).2⟩

/-- C9 (`validateOneOf`): the call returns `true` if and only if the Field is loaded
and its held value equals some element of `values`; so it returns `false` on every
Field that is not loaded and on every Field when `values` is empty. -/
theorem validateOneOf_iff [DecidableEq T] (f : Field T) (validation : ValidationList)
    (message : String) (values : List T) :
    ((f.validateOneOf validation message values).ret = true
        ↔ (f.isLoaded = true ∧ ∃ x, x ∈ values ∧ f.getValue = x))
      ∧ (f.isLoaded = false → (f.validateOneOf validation message values).ret = false)
      ∧ (f.validateOneOf validation message []).ret = false := by
  refine ⟨?_, ?_, ?_⟩
  · cases hl : f.loaded with
    | true =>
      simp [Field.validateOneOf, hl, Field.isLoaded, Field.getValue,
        Field.validateOneOfLoop_iff]
    | false => simp [Field.validateOneOf, hl, Field.isLoaded]
  · intro h
    have h1 : f.loaded = false := h
    simp [Field.validateOneOf, h1]
  · cases hl : f.loaded <;> simp [Field.validateOneOf, hl, Field.validateOneOfLoop]

/-- Witness of C9: a fresh Field constructed with 12 is rejected although 12 is
allowed; a Field loaded with 16 is accepted by `[12, 16]` and rejected by `[12]`. -/
theorem validateOneOf_iff_witness :
    ((Field.new (12 : Int)).validateOneOf [] "size" [12]).ret = false
      ∧ ((Field.mk (16 : Int) true true).validateOneOf [] "size" [12, 16]).ret = true
      ∧ ((Field.mk (16 : Int) true true).validateOneOf [] "size" [12]).ret = false :=
  ⟨(validateOneOf_iff (Field.new (12 : Int)) [] "size" [12]).2.1 rfl,
   (validateOneOf_iff (Field.mk (16 : Int) true true) [] "size" [12, 16]).1.2
     ⟨rfl, 16, by decide, rfl⟩,
   by decide⟩

/-- C10 (`validateOneOf` appends nothing): for every Field, validation list, message
and list of allowed values, the validation list after the call is the list before
the call. -/
theorem validateOneOf_keeps_validation [DecidableEq T] (f : Field T)
    (validation : ValidationList) (message : String) (values : List T) :
    (f.validateOneOf validation message values).validation = validation := by
  cases hl : f.loaded <;> simp [Field.validateOneOf, hl]

end Contract

/-! ## Lemmas on sequences of calls -/

theorem Field.require_field {T : Type} (f : Field T) (validation : ValidationList)
    (message : String) : (f.require validation message).field = f := by
  cases hl : f.loaded <;> simp [Field.require, hl]

section CallLemmas

variable {T : Type} [DecidableEq T]

theorem Field.validateOneOf_field (f : Field T) (validation : ValidationList)
    (message : String) (values : List T) :
    (f.validateOneOf validation message values).field = f := by
  cases hl : f.loaded <;> simp [Field.validateOneOf, hl]

theorem Field.call_of_loaded (f : Field T) (c : FieldCall T) (h : f.loaded = true) :
    f.call c = f := by
  cases c with
  | load sec key => simp [Field.call, Field.load_of_loaded f sec key h]
  | loadDefault sec key d => simp [Field.call, Field.loadDefault_of_loaded f sec key d h]
  | require validation message => simp [Field.call, Field.require_field]
  | validateOneOf validation message values => simp [Field.call, Field.validateOneOf_field]

theorem Field.calls_cons (f : Field T) (c : FieldCall T) (cs : List (FieldCall T)) :
    f.calls (c :: cs) = (f.call c).calls cs := by
  simp [Field.calls]

theorem Field.calls_append (f : Field T) (a b : List (FieldCall T)) :
    f.calls (a ++ b) = (f.calls a).calls b := by
  simp [Field.calls]

theorem Field.calls_of_loaded (cs : List (FieldCall T)) :
    ∀ f : Field T, f.loaded = true → f.calls cs = f := by
  induction cs with
  | nil => intro f _; simp [Field.calls]
  | cons c rest ih =>
    intro f h
    rw [Field.calls_cons, Field.call_of_loaded f c h]
    exact ih f h

/-- A call after which the Field is not loaded did not change it. -/
theorem Field.call_of_unloaded_after (f : Field T) (c : FieldCall T)
    (h : (f.call c).loaded = false) : f.call c = f := by
  cases hl : f.loaded with
  | true => exact Field.call_of_loaded f c hl
  | false =>
    cases c with
    | load sec key =>
      cases hk : sec.has key with
      | true =>
        simp [Field.call, Field.load_of_has f sec key hl hk] at h
      | false => simp [Field.call, Field.load_of_not_has f sec key hl hk]
    | loadDefault sec key d =>
      simp [Field.call, Field.loadDefault_of_not_loaded f sec key d hl] at h
    | require validation message => simp [Field.call, Field.require_field]
    | validateOneOf validation message values =>
      simp [Field.call, Field.validateOneOf_field]

/-- A call that changes the Field finds it not loaded and leaves it loaded. -/
theorem Field.call_ne (f : Field T) (c : FieldCall T) (h : f.call c ≠ f) :
    f.loaded = false ∧ (f.call c).loaded = true := by
  constructor
  · cases hl : f.loaded with
    | true => exact absurd (Field.call_of_loaded f c hl) h
    | false => rfl
  · cases hl : (f.call c).loaded with
    | true => rfl
    | false => exact absurd (Field.call_of_unloaded_after f c hl) h

/-- A sequence of calls after which the Field is not loaded did not change it. -/
theorem Field.calls_of_unloaded_after (cs : List (FieldCall T)) :
    ∀ f : Field T, (f.calls cs).loaded = false → f.calls cs = f := by
  induction cs with
  | nil => intro f _; simp [Field.calls]
  | cons c rest ih =>
    intro f h
    rw [Field.calls_cons] at h ⊢
    cases hl : (f.call c).loaded with
    | true =>
      rw [Field.calls_of_loaded rest (f.call c) hl] at h
      rw [hl] at h
      cases h
    | false =>
      rw [Field.call_of_unloaded_after f c hl] at h ⊢
      exact ih f h

theorem Field.changeCount_of_loaded (cs : List (FieldCall T)) :
    ∀ f : Field T, f.loaded = true → Field.changeCount f cs = 0 := by
  induction cs with
  | nil => intro f _; rfl
  | cons c rest ih =>
    intro f h
    have hc := Field.call_of_loaded f c h
    simp [Field.changeCount, hc, ih f h]

theorem Field.changeCount_le_one (cs : List (FieldCall T)) :
    ∀ f : Field T, Field.changeCount f cs ≤ 1 := by
  induction cs with
  | nil => intro f; simp [Field.changeCount]
  | cons c rest ih =>
    intro f
    by_cases hc : f.call c = f
    · have := ih f
      simpa [Field.changeCount, hc] using this
    · have h0 := Field.changeCount_of_loaded rest (f.call c) (Field.call_ne f c hc).2
      simp [Field.changeCount, hc, h0]

end CallLemmas

/-! ## Lemmas on diagnostics and on `std::map` -/

theorem listHasError_iff (validation : ValidationList) :
    listHasError validation = true ↔ ∃ m, m ∈ validation ∧ m.severity = Severity.error := by
  induction validation with
  | nil => simp [listHasError]
  | cons m rest ih =>
    cases hs : m.severity with
    | error => simp [listHasError, ValidationMessage.isError, hs]
    | warning => simp [listHasError, ValidationMessage.isError, hs, ih]

theorem mapHasError_iff (vm : ValidationMap) :
    mapHasError vm = true
      ↔ ∃ e, e ∈ vm ∧ ∃ m, m ∈ e.2 ∧ m.severity = Severity.error := by
  induction vm with
  | nil => simp [mapHasError]
  | cons e rest ih =>
    by_cases he : listHasError e.2 = true
    · have h1 := (listHasError_iff e.2).1 he
      simp only [mapHasError, he, if_true, true_iff]
      exact ⟨e, List.mem_cons_self e rest, h1⟩
    · have h1 : ¬ ∃ m, m ∈ e.2 ∧ m.severity = Severity.error :=
        fun h => he ((listHasError_iff e.2).2 h)
      simp only [mapHasError, he, Bool.false_eq_true, if_false, ih]
      constructor
      · rintro ⟨e1, hmem, h⟩
        exact ⟨e1, List.mem_cons_of_mem e hmem, h⟩
      · rintro ⟨e1, hmem, h⟩
        rcases List.mem_cons.1 hmem with heq | hmem1
        · subst heq
          exact absurd h h1
        · exact ⟨e1, hmem1, h⟩

theorem StdMap.findEntry_some {K V : Type} [DecidableEq K] (k : K) (v : V) :
    ∀ entries : List (K × V), StdMap.findEntry k entries = some v → (k, v) ∈ entries := by
  intro entries
  induction entries with
  | nil => intro h; simp [StdMap.findEntry] at h
  | cons e rest ih =>
    intro h
    obtain ⟨k1, v1⟩ := e
    by_cases hk : k1 = k
    · simp [StdMap.findEntry, hk] at h
      simp [hk, h]
    · simp [StdMap.findEntry, hk] at h
      exact List.mem_cons_of_mem _ (ih h)

/-! ## Invariants and behaviour of `Field<T>` over its lifetime -/

section Lifetime

variable {T : Type} [DecidableEq T]

/-- C11 (Field invariant): in every state reached from a freshly constructed Field by
a finite sequence of `load(section, key)`, `load(section, key, default)`, `require`
and `validateOneOf` calls, `isValid() == true` implies `isLoaded() == true`. -/
theorem valid_implies_loaded (v : T) (cs : List (FieldCall T)) :
    ((Field.new v).calls cs).isValid = true → ((Field.new v).calls cs).isLoaded = true := by
  intro h
  have hinv := Field.calls_valid_eq_loaded cs (Field.new v) rfl
  simpa [Field.isValid, Field.isLoaded, hinv] using h

/-- Witness of C11: a Field constructed with 12, after a failed `require` and a load
from a section that sets `texture_size = 16`, is valid and loaded. -/
theorem valid_implies_loaded_witness :
    ((Field.new (12 : Int)).calls
        [FieldCall.require [] "missing",
         FieldCall.load (sectionWith "texture_size" 16) "texture_size"]).isValid = true
      ∧ ((Field.new (12 : Int)).calls
        [FieldCall.require [] "missing",
         FieldCall.load (sectionWith "texture_size" 16) "texture_size"]).isLoaded = true :=
  ⟨by decide,
   valid_implies_loaded (12 : Int)
     [FieldCall.require [] "missing",
      FieldCall.load (sectionWith "texture_size" 16) "texture_size"] (by decide)⟩

/-- C14 (populated at most once): for a freshly constructed Field and any finite
sequence `cs` of calls, at most one call changes the object; a call that changes it
finds `isLoaded()` false and leaves it true, every call after such a call leaves the
object as it is, and once `isLoaded()` is true it is true after every later call. -/
theorem populated_at_most_once (v : T) (cs : List (FieldCall T)) :
    Field.changeCount (Field.new v) cs ≤ 1
      ∧ (∀ pre c post, cs = pre ++ c :: post →
          ((Field.new v).calls pre).call c ≠ (Field.new v).calls pre →
            ((Field.new v).calls pre).isLoaded = false
              ∧ (((Field.new v).calls pre).call c).isLoaded = true)
      ∧ (∀ pre c mid c2 post, cs = pre ++ c :: (mid ++ c2 :: post) →
          ((Field.new v).calls pre).call c ≠ (Field.new v).calls pre →
            ((Field.new v).calls (pre ++ c :: mid)).call c2
              = (Field.new v).calls (pre ++ c :: mid))
      ∧ (∀ pre mid post, cs = pre ++ (mid ++ post) →
          ((Field.new v).calls pre).isLoaded = true →
            ((Field.new v).calls (pre ++ mid)).isLoaded = true) := by
  refine ⟨Field.changeCount_le_one cs (Field.new v), ?_, ?_, ?_⟩
  · intro pre c post _ hne
    exact Field.call_ne _ c hne
  · intro pre c mid c2 post _ hne
    have hl := (Field.call_ne _ c hne).2
    have hst : (Field.new v).calls (pre ++ c :: mid) = ((Field.new v).calls pre).call c := by
      rw [Field.calls_append, Field.calls_cons, Field.calls_of_loaded mid _ hl]
    rw [hst]
    exact Field.call_of_loaded _ c2 hl
  · intro pre mid post _ hl
    have hl1 : ((Field.new v).calls pre).loaded = true := hl
    rw [Field.calls_append, Field.calls_of_loaded mid _ hl1]
    exact hl

/-- Witness of C14: a failed load, a `require`, a successful load of 16 and a load
with default 12 on a Field constructed with 12: exactly one call changes the object
and the Field ends loaded with 16. -/
theorem populated_at_most_once_witness :
    Field.changeCount (Field.new (12 : Int))
        [FieldCall.load (sectionEmpty 0) "texture_size",
         FieldCall.require [] "missing",
         FieldCall.load (sectionWith "texture_size" 16) "texture_size",
         FieldCall.loadDefault (sectionWith "texture_size" 32) "texture_size" 12] ≤ 1
      ∧ Field.changeCount (Field.new (12 : Int))
        [FieldCall.load (sectionEmpty 0) "texture_size",
         FieldCall.require [] "missing",
         FieldCall.load (sectionWith "texture_size" 16) "texture_size",
         FieldCall.loadDefault (sectionWith "texture_size" 32) "texture_size" 12] = 1
      ∧ (Field.new (12 : Int)).calls
        [FieldCall.load (sectionEmpty 0) "texture_size",
         FieldCall.require [] "missing",
         FieldCall.load (sectionWith "texture_size" 16) "texture_size",
         FieldCall.loadDefault (sectionWith "texture_size" 32) "texture_size" 12]
          = Field.mk 16 true true :=
  ⟨(populated_at_most_once (12 : Int)
      [FieldCall.load (sectionEmpty 0) "texture_size",
       FieldCall.require [] "missing",
       FieldCall.load (sectionWith "texture_size" 16) "texture_size",
       FieldCall.loadDefault (sectionWith "texture_size" 32) "texture_size" 12]).1,
   by decide, by decide⟩

/-- C15 (only `load` mutates): for every Field and all arguments, `require` and
`validateOneOf` leave the object, hence `getValue()`, `isLoaded()` and `isValid()`,
exactly as before the call. -/
theorem require_validateOneOf_keep_field (f : Field T) (validation : ValidationList)
    (message : String) (values : List T) :
    ((f.require validation message).field = f
        ∧ (f.require validation message).field.getValue = f.getValue
        ∧ (f.require validation message).field.isLoaded = f.isLoaded
        ∧ (f.require validation message).field.isValid = f.isValid)
      ∧ ((f.validateOneOf validation message values).field = f
        ∧ (f.validateOneOf validation message values).field.getValue = f.getValue
        ∧ (f.validateOneOf validation message values).field.isLoaded = f.isLoaded
        ∧ (f.validateOneOf validation message values).field.isValid = f.isValid) := by
  rw [Field.require_field, Field.validateOneOf_field]
  simp

/-- C17 (an unloaded Field holds its constructor value): in every state reached from
`Field(v)` by a finite sequence of calls, `isLoaded() == false` implies
`getValue() == v`; a `load(section, key)` on a section lacking the key leaves the
value untouched; and a MapSection whose `texture_size` Field is still not loaded
after any sequence of calls reports `getTextureSize() == 12`. -/
theorem unloaded_holds_constructor_value (v : T) (cs : List (FieldCall T))
    (f : Field T) (sec : ConfigSection T) (key : String)
    (global : Bool) (ts : List (FieldCall Int)) :
    (((Field.new v).calls cs).isLoaded = false → ((Field.new v).calls cs).getValue = v)
      ∧ (sec.has key = false → (f.load sec key).2.getValue = f.getValue)
      ∧ (((MapSection.new global).texture_size.calls ts).isLoaded = false →
          MapSection.getTextureSize
            { MapSection.new global with
              texture_size := (MapSection.new global).texture_size.calls ts } = 12) := by
  refine ⟨?_, ?_, ?_⟩
  · intro h
    rw [Field.calls_of_unloaded_after cs (Field.new v) h]
    rfl
  · intro hk
    cases hl : f.loaded with
    | true => rw [Field.load_of_loaded f sec key hl]
    | false => rw [Field.load_of_not_has f sec key hl hk]
  · intro h
    have h1 : ((MapSection.new global).texture_size.calls ts).loaded = false := h
    simp only [MapSection.getTextureSize]
    rw [Field.calls_of_unloaded_after ts _ h1]
    rfl

/-- Witness of C17: a map section whose `texture_size` was looked up in a section
without that key, then required, still reports 12. -/
theorem unloaded_holds_constructor_value_witness :
    ((Field.new (12 : Int)).calls
        [FieldCall.load (sectionEmpty 0) "texture_size",
         FieldCall.require [] "missing"]).getValue = 12
      ∧ ((Field.new (12 : Int)).load (sectionEmpty 0) "texture_size").2.getValue = 12
      ∧ MapSection.getTextureSize
          { MapSection.new false with
            texture_size := (MapSection.new false).texture_size.calls
              [FieldCall.load (sectionEmpty 0) "texture_size",
               FieldCall.require [] "missing"] } = 12 :=
  have h := unloaded_holds_constructor_value (12 : Int)
    [FieldCall.load (sectionEmpty 0) "texture_size", FieldCall.require [] "missing"]
    (Field.new (12 : Int)) (sectionEmpty 0) "texture_size" false
    [FieldCall.load (sectionEmpty 0) "texture_size", FieldCall.require [] "missing"]
  ⟨h.1 (by decide), h.2.1 rfl, h.2.2 (by decide)⟩

/-- C18 (`valid` carries no information beyond `loaded`): in every state reached from
a freshly constructed Field by a finite sequence of calls, `isValid() == isLoaded()`;
so the object left by a further `validateOneOf`, whatever it returns, is never
loaded with `isValid() == false`. -/
theorem valid_eq_loaded (v : T) (cs : List (FieldCall T)) (validation : ValidationList)
    (message : String) (values : List T) :
    ((Field.new v).calls cs).isValid = ((Field.new v).calls cs).isLoaded
      ∧ ¬ ((((Field.new v).calls cs).validateOneOf validation message values).field.isLoaded
              = true
            ∧ (((Field.new v).calls cs).validateOneOf validation message
                values).field.isValid = false) := by
  have hinv := Field.calls_valid_eq_loaded cs (Field.new v) rfl
  refine ⟨hinv, ?_⟩
  rw [Field.validateOneOf_field]
  rintro ⟨h1, h2⟩
  have h3 : ((Field.new v).calls cs).valid = false := h2
  have h4 : ((Field.new v).calls cs).loaded = true := h1
  rw [hinv, h4] at h3
  cases h3

end Lifetime

/-! ## Sections and parser -/

/-- C12 (MapSection built-in defaults): a freshly constructed MapSection, for either
value of the global flag, reports `getTextureSize() == 12`,
`renderUnknownBlocks() == false`, `renderLeavesTransparent() == false` and
`renderBiomes() == false`, and each of these four Fields is neither loaded nor
valid. -/
theorem mapSection_defaults (global : Bool) :
    (MapSection.new global).getTextureSize = 12
      ∧ (MapSection.new global).renderUnknownBlocks = false
      ∧ (MapSection.new global).renderLeavesTransparent = false
      ∧ (MapSection.new global).renderBiomes = false
      ∧ (MapSection.new global).texture_size.isLoaded = false
      ∧ (MapSection.new global).texture_size.isValid = false
      ∧ (MapSection.new global).render_unknown_blocks.isLoaded = false
      ∧ (MapSection.new global).render_unknown_blocks.isValid = false
      ∧ (MapSection.new global).render_leaves_transparent.isLoaded = false
      ∧ (MapSection.new global).render_leaves_transparent.isValid = false
      ∧ (MapSection.new global).render_biomes.isLoaded = false
      ∧ (MapSection.new global).render_biomes.isValid = false := by
  simp [MapSection.new, MapSection.getTextureSize, MapSection.renderUnknownBlocks,
    MapSection.renderLeavesTransparent, MapSection.renderBiomes, Field.new,
    Field.getValue, Field.isLoaded, Field.isValid]

/-- C16 (the global templates are not queryable entries): a freshly constructed
ConfigParser holds a WorldSection template and a MapSection template both flagged
global, while `hasWorld(name)` is false for every name and `getWorlds()` and
`getMaps()` are empty. -/
theorem templates_not_queryable (name : String) :
    ConfigParser.new.world_global.global = true
      ∧ ConfigParser.new.map_global.global = true
      ∧ ConfigParser.new.hasWorld name = false
      ∧ ConfigParser.new.getWorlds.entries = []
      ∧ ConfigParser.new.getMaps = [] := by
  simp [ConfigParser.new, ConfigParser.hasWorld, ConfigParser.getWorlds,
    ConfigParser.getMaps, WorldSection.new, MapSection.new, StdMap.empty, StdMap.count,
    StdMap.find, StdMap.findEntry]

/-- C19 (`getWorld` is defined exactly where `hasWorld` is true): for every
ConfigParser state and name, `getWorld(name)` returns a WorldSection if and only if
`hasWorld(name)` is true, the section returned is stored under `name` in
`getWorlds()`, and when `hasWorld(name)` is false `getWorld(name)` throws
`std::out_of_range`. -/
theorem getWorld_iff_hasWorld (p : ConfigParser) (name : String) :
    (p.hasWorld name = true ↔ ∃ w, p.getWorld name = Except.ok w)
      ∧ (∀ w, p.getWorld name = Except.ok w → (name, w) ∈ p.getWorlds.entries)
      ∧ (p.hasWorld name = false →
          p.getWorld name = Except.error StdException.out_of_range) := by
  refine ⟨?_, ?_, ?_⟩
  · cases hf : p.worlds.find name <;>
      simp [ConfigParser.hasWorld, ConfigParser.getWorld, StdMap.count, StdMap.atKey, hf]
  · intro w hw
    cases hf : p.worlds.find name with
    | none => simp [ConfigParser.getWorld, StdMap.atKey, hf] at hw
    | some w1 =>
      simp [ConfigParser.getWorld, StdMap.atKey, hf] at hw
      subst hw
      exact StdMap.findEntry_some name w1 p.worlds.entries hf
  · intro h
    cases hf : p.worlds.find name with
    | none => simp [ConfigParser.getWorld, StdMap.atKey, hf]
    | some w1 => simp [ConfigParser.hasWorld, StdMap.count, hf] at h

/-- Witness of C19: a parser holding one world named `world`: `getWorld` succeeds on
that name and throws on another. -/
theorem getWorld_iff_hasWorld_witness :
    (∃ w, ConfigParser.getWorld
        { ConfigParser.new with worlds := ⟨[("world", WorldSection.new false)]⟩ } "world"
          = Except.ok w)
      ∧ ConfigParser.getWorld
        { ConfigParser.new with worlds := ⟨[("world", WorldSection.new false)]⟩ } "nether"
          = Except.error StdException.out_of_range :=
  ⟨(getWorld_iff_hasWorld
      { ConfigParser.new with worlds := ⟨[("world", WorldSection.new false)]⟩ } "world").1.1
      (by decide),
   (getWorld_iff_hasWorld
      { ConfigParser.new with worlds := ⟨[("world", WorldSection.new false)]⟩ } "nether").2.2
      (by decide)⟩

theorem ConfigParser.parse_ret {S : Type} (env : ParseEnv S) (p : ConfigParser)
    (filename : String) (validation : ValidationMap) :
    (ConfigParser.parse env p filename validation).1
      = !mapHasError (ConfigParser.parse env p filename validation).2.2 := by
  cases hr : env.read filename <;> simp [ConfigParser.parse, hr]

/-- C13 (`ConfigParser::parse` fails exactly on errors): `parse(filename,
validationMap)` returns `false` if and only if some diagnostic of some entry of the
resulting validation map has error severity; when every diagnostic in the resulting
map is a warning (or there is none) it returns `true`. -/
theorem parse_false_iff_error {S : Type} (env : ParseEnv S) (p : ConfigParser)
    (filename : String) (validation : ValidationMap) :
    ((ConfigParser.parse env p filename validation).1 = false
        ↔ ∃ e, e ∈ (ConfigParser.parse env p filename validation).2.2
            ∧ ∃ m, m ∈ e.2 ∧ m.severity = Severity.error)
      ∧ ((∀ e, e ∈ (ConfigParser.parse env p filename validation).2.2 →
            ∀ m, m ∈ e.2 → m.severity = Severity.warning) →
          (ConfigParser.parse env p filename validation).1 = true) := by
  have hret := ConfigParser.parse_ret env p filename validation
  have hiff := mapHasError_iff (ConfigParser.parse env p filename validation).2.2
  constructor
  · rw [hret, ← hiff]
    simp
  · intro hw
    rw [hret]
    cases hm : mapHasError (ConfigParser.parse env p filename validation).2.2 with
    | false => rfl
    | true =>
      obtain ⟨e, he, m, hm1, hs⟩ := hiff.1 hm
      have := hw e he m hm1
      rw [hs] at this
      cases this

/-- Witness of C13: a document whose map `day` emits one error makes `parse` return
`false`; the same document with a warning instead makes it return `true`. -/
theorem parse_false_iff_error_witness :
    (ConfigParser.parse (envOf docWithError) ConfigParser.new "render.conf" []).1 = false
      ∧ (ConfigParser.parse (envOf docWarningOnly) ConfigParser.new "render.conf" []).1
          = true :=
  ⟨(parse_false_iff_error (envOf docWithError) ConfigParser.new "render.conf" []).1.2
      ⟨("map:day", [⟨Severity.error, "texture_size must be positive"⟩]),
        by decide, ⟨Severity.error, "texture_size must be positive"⟩, by decide, rfl⟩,
   (parse_false_iff_error (envOf docWarningOnly) ConfigParser.new "render.conf" []).2
      (by decide)⟩

end config2
end mapcrafter
